import Mathlib

/-!
Verification of the Sudoku grid model and constraint-propagation solver of
`src/lib/widgets/sudoku_matrix.py` (classes `Matrix`, `SudokuMatrix`,
`SudokuMatrixCell`, `SudokuMatrixSolver`, `SudokuMatrixSolverCell`).

Shallow embedding conventions:
* A cell's list content (the Python object is a `list` subclass) is the field
  `candidates : List Item` where `Item := Option Nat`; `Option.none` models the
  Python value `None`, `Option.some n` an integer symbol of the base sequence.
* Python truthiness matters in `get_value` (`len(self) == 1 and self[0] or self`):
  `None` and `0` are falsy, which `truthy` captures.
* `get_value` can return either a single item or the whole list; the sum type
  `PyVal` models that, and the methods that receive such a value
  (`strip_value`, `set_value`) take a `PyVal`.
* Methods that may raise return `Except PyErr`; methods that swallow
  exceptions (`SudokuMatrixCell.strip_value`) are total.
* The `on_unique_value` hook is observable: cell mutators return a `Bool`
  recording whether the hook was invoked.  `SudokuMatrixCell.set_values`
  contains no call to the hook in the source, hence its flag is constantly
  `false`.  At grid level the solver cell's hook registers the cell into the
  solver's cleanup queue.
* Python `set` iteration/pop order is unspecified; the embedding fixes a
  deterministic order (first-occurrence deduplication for unit sets,
  oldest-first popping for the cleanup queue) and no theorem below depends on
  a different order being impossible.
-/

namespace SudokuPy

/-- Python value stored in a cell list: `Option.none` models Python `None`,
`Option.some n` an integer symbol. -/
abbrev Item := Option Nat

/-- Python truthiness of an `Item` (`None` and `0` are falsy). -/
def truthy : Item → Bool
  | Option.none => false
  | Option.some n => n != 0

/-- A value as produced by `SudokuMatrixCell.get_value`: either a single item
or the cell's whole list. -/
abbrev PyVal := Item ⊕ List Item

/-- Exceptions of the Python source that the embedding distinguishes. -/
inductive PyErr where
  /-- `SudokuMatrixError` raised by `set_value` / `reset_matrix`. -/
  | sudokuMatrixError : PyErr
  /-- `IndexError` raised by `Matrix.ensure_inbounds`. -/
  | indexError : PyErr
  /-- `AttributeError` from `exec("self.do_step_N(...)")` when no
  `do_step_N` method exists; carries the missing step number. -/
  | attributeError : Nat → PyErr
  /-- artifact of fuel-based modelling of the unbounded `while` loops;
  no theorem equates a real Python behaviour with this. -/
  | fuelOut : PyErr
deriving DecidableEq

/-- State of a `SudokuMatrixCell` / `SudokuMatrixSolverCell`:
`candidates` is the object's own list content, `base` its `base_sequence`
tuple, `solved` the lock flag, `row`/`column`/`answer` plain attributes. -/
structure Cell where
  row : Nat
  column : Nat
  base : List Nat
  answer : Item
  candidates : List Item
  solved : Bool
deriving DecidableEq

/-- `SudokuMatrixCell.set_value(value)`: no-op when locked by `solved`;
`None` resets the list to `[None]` without firing the hook; a base-sequence
member becomes the singleton content and fires `on_unique_value`; anything
else raises `SudokuMatrixError`.  The returned `Bool` records whether
`on_unique_value` was invoked. -/
def Cell.set_value (c : Cell) (v : PyVal) : Except PyErr (Cell × Bool) :=
  if c.solved then Except.ok (c, false)
  else
    match v with
    | Sum.inl Option.none => Except.ok ({ c with candidates := [Option.none] }, false)
    | Sum.inl (Option.some n) =>
        if n ∈ c.base then Except.ok ({ c with candidates := [Option.some n] }, true)
        else Except.error PyErr.sudokuMatrixError
    | Sum.inr _ => Except.error PyErr.sudokuMatrixError

/-- `SudokuMatrixCell.set_values(values)`: no-op when locked, else replaces
the list content verbatim.  The source contains no `on_unique_value` call in
this method, so the hook flag is constantly `false`. -/
def Cell.set_values (c : Cell) (vs : List Item) : Cell × Bool :=
  if c.solved then (c, false) else ({ c with candidates := vs }, false)

/-- `SudokuMatrixCell.strip_value(value)`: no-op when locked; otherwise
`list.remove` of the first occurrence, with `ValueError` silently swallowed;
fires `on_unique_value` iff the removal succeeded and left exactly one
element.  A `PyVal` that is itself a list never matches an element. -/
def Cell.strip_value (c : Cell) (v : PyVal) : Cell × Bool :=
  if c.solved then (c, false)
  else
    match v with
    | Sum.inr _ => (c, false)
    | Sum.inl it =>
        if it ∈ c.candidates then
          let l := c.candidates.erase it
          ({ c with candidates := l }, l.length == 1)
        else (c, false)

/-- `SudokuMatrixCell.reset()` with no keyword arguments: keeps `row`,
`column`, `answer` and `base_sequence`, clears the `solved` lock and then
refills the list with the base sequence via `set_values` (which proceeds
because the lock was just cleared). -/
def Cell.reset (c : Cell) : Cell :=
  (Cell.set_values { c with solved := false } (c.base.map Option.some)).1

/-- `SudokuMatrixCell.get_value()`: the Python idiom
`len(self) == 1 and self[0] or self` — returns the sole element when the list
has length one and that element is truthy, otherwise the whole list. -/
def Cell.get_value (c : Cell) : PyVal :=
  match c.candidates with
  | [v] => if truthy v then Sum.inl v else Sum.inr c.candidates
  | _ => Sum.inr c.candidates

/-- fresh cell as produced by `SudokuMatrix.fill_with` /
`SudokuMatrixSolver.fill_with`: constructor runs `reset`, so the content is
the full base sequence and the cell is unlocked. -/
def mkCell (base : List Nat) (r c : Nat) : Cell :=
  { row := r, column := c, base := base, answer := Option.none,
    candidates := base.map Option.some, solved := false }

/-- State of a `SudokuMatrixSolver` (which is also a `SudokuMatrix`): the
flat row-major cell list, the `base_sequence`, the `box_size`, the solver's
`cleanups` set (a duplicate-free list in registration order) and the solver's
`step` counter.  A plain `SudokuMatrix` is the same state with `cleanups`
unused: the base cell's `on_unique_value` hook does nothing, and no theorem
about the plain matrix inspects `cleanups`. -/
structure SudokuState where
  base : List Nat
  box : Nat
  cells : List Cell
  cleanups : List Nat
  step : Nat
deriving DecidableEq

/-- grid extent: `rows == columns == len(base_sequence)`. -/
def SudokuState.N (s : SudokuState) : Nat := s.base.length

/-- out-of-range reads return this dummy; all theorems restrict indices to
the grid extent, where it is never produced. -/
def defaultCell : Cell :=
  { row := 0, column := 0, base := [], answer := Option.none,
    candidates := [], solved := false }

/-- the cell object at flat index `k` (`self[k]`). -/
def SudokuState.cell (s : SudokuState) (k : Nat) : Cell :=
  s.cells.getD k defaultCell

/-- the list content of the cell at flat index `k`. -/
def SudokuState.cand (s : SudokuState) (k : Nat) : List Item :=
  (s.cell k).candidates

/-- replace the cell object at flat index `k`. -/
def SudokuState.setCell (s : SudokuState) (k : Nat) (c : Cell) : SudokuState :=
  { s with cells := s.cells.set k c }

/-- `SudokuMatrixSolver.register_for_cleanups(cell)`: `set.add` — idempotent
insertion of the cell's identity. -/
def SudokuState.enqueue (s : SudokuState) (k : Nat) : SudokuState :=
  if k ∈ s.cleanups then s else { s with cleanups := s.cleanups ++ [k] }

/-- flat indices of `Matrix.get_row_cells(r)`:
`self[r*columns : (r+1)*columns]`. -/
def rowIndices (N r : Nat) : List Nat :=
  (List.range N).map (fun j => r * N + j)

/-- flat indices of `Matrix.get_column_cells(c)`: `self[c::columns]`. -/
def colIndices (N c : Nat) : List Nat :=
  (List.range N).map (fun i => i * N + c)

/-- flat indices of `SudokuMatrix.get_box_cells(r, c)`: for each row of the
box containing `(r, c)`, the `box_size` consecutive cells starting at the
box's first column. -/
def boxIndices (N b r c : Nat) : List Nat :=
  (List.range b).flatMap
    (fun i => (List.range b).map (fun j => (b * (r / b) + i) * N + (b * (c / b) + j)))

/-- `SudokuMatrix.get_unit_cells(r, c)` as an iteration sequence: the Python
`set(row + column + box)` deduplicates by identity (cells hash by `id`);
the embedding keeps first occurrences of the concatenation.  Iteration order
of a Python set is unspecified; the theorems below do not depend on it. -/
def unitIndicesList (N b r c : Nat) : List Nat :=
  (rowIndices N r ++ colIndices N c ++ boxIndices N b r c).dedup

/-- grid-level strip of one value from one cell, with the solver cell's
`on_unique_value` hook registering the cell into `cleanups`. -/
def stripCell (s : SudokuState) (k : Nat) (v : PyVal) : SudokuState :=
  if ((s.cell k).strip_value v).2 then
    (s.setCell k ((s.cell k).strip_value v).1).enqueue k
  else s.setCell k ((s.cell k).strip_value v).1

/-- grid-level `set_value` on one cell, with hook registration. -/
def setValueCell (s : SudokuState) (k : Nat) (v : PyVal) : Except PyErr SudokuState :=
  match (s.cell k).set_value v with
  | Except.error e => Except.error e
  | Except.ok r =>
      Except.ok (if r.2 then (s.setCell k r.1).enqueue k else s.setCell k r.1)

/-- `SudokuMatrix.strip_value(value, row, column)`: bounds check (raised by
`ensure_inbounds` inside the unit queries), then `strip_value(value)` on every
cell of the unit, then `set_value(value)` on the target cell. -/
def matrixStripValue (s : SudokuState) (v : PyVal) (r c : Nat) :
    Except PyErr SudokuState :=
  if r < s.N ∧ c < s.N then
    let s1 := (unitIndicesList s.N s.box r c).foldl (fun t k => stripCell t k v) s
    setValueCell s1 (r * s.N + c) v
  else Except.error PyErr.indexError

/-- `SudokuMatrixSolver.do_finished()`: every cell's `solved` flag is set. -/
def allSolved (s : SudokuState) : Bool := s.cells.all (fun c => c.solved)

/-- `SudokuMatrixSolver.do_step_1(kw)`: reset every cell whose content is not
a single element; register every unlocked single-element cell for cleanups;
then advance the step counter. -/
def do_step_1 (s : SudokuState) : SudokuState :=
  let s1 := (List.range s.cells.length).foldl
    (fun t k =>
      let c := t.cell k
      if c.candidates.length ≠ 1 then t.setCell k c.reset
      else if ¬ c.solved then t.enqueue k
      else t) s
  { s1 with step := s1.step + 1 }

/-- one drain pass of `SudokuMatrixSolver.do_step_2`: pop a cell from the
cleanup set (pop order of a Python set is unspecified; the embedding pops the
oldest entry), re-check that it still holds a single element, lock it, and
strip its value from its unit via `SudokuMatrix.strip_value`. -/
def do_step_2_loop : Nat → SudokuState → Except PyErr SudokuState
  | 0, s => if s.cleanups.isEmpty then Except.ok s else Except.error PyErr.fuelOut
  | fuel + 1, s =>
      match s.cleanups with
      | [] => Except.ok s
      | k :: rest =>
          let s0 := { s with cleanups := rest }
          let c := s0.cell k
          if c.candidates.length = 1 then
            let s1 := s0.setCell k { c with solved := true }
            match matrixStripValue s1 ((s1.cell k).get_value) c.row c.column with
            | Except.error e => Except.error e
            | Except.ok s2 => do_step_2_loop fuel s2
          else do_step_2_loop fuel s0

/-- `SudokuMatrixSolver.do_step_2(kw)`: drain the cleanup queue, then advance
the step counter. -/
def do_step_2 (fuel : Nat) (s : SudokuState) : Except PyErr SudokuState :=
  match do_step_2_loop fuel s with
  | Except.error e => Except.error e
  | Except.ok s1 => Except.ok { s1 with step := s1.step + 1 }

/-- `SudokuMatrixSolver.get_similar_cells(cell, cells)` as indices: members of
`unit` whose current list content equals the probe cell's and which are not
the probe cell itself (`_c == cell and _c is not cell`). -/
def similarCells (s : SudokuState) (cellIdx : Nat) (unit : List Nat) : List Nat :=
  unit.filter (fun q => decide (s.cand q = s.cand cellIdx ∧ q ≠ cellIdx))

/-- the strip loop of one lookup in `do_step_3`: for each cell of the unit
not contained in `sims` (`in` tests identity or list equality against the
current content of the sims cells), strip every value of the probe cell's
current content from it. -/
def lookupStrip (s : SudokuState) (cellIdx : Nat) (simsP : List Nat)
    (unit : List Nat) : SudokuState :=
  unit.foldl
    (fun t k =>
      if simsP.any (fun q => decide (k = q) || decide (t.cand k = t.cand q)) then t
      else (t.cand cellIdx).foldl (fun u v => stripCell u k (Sum.inl v)) t) s

/-- one lookup of `do_step_3` (row, column or box): find similar cells; if
any, append the probe cell itself to the group and strip the probe cell's
values from every unit cell outside the group. -/
def processLookup (s : SudokuState) (cellIdx : Nat) (unit : List Nat) : SudokuState :=
  if (similarCells s cellIdx unit).isEmpty then s
  else lookupStrip s cellIdx (similarCells s cellIdx unit ++ [cellIdx]) unit

/-- the body of `do_step_3` for one cell: the three lookups (row, column,
box) in source order. -/
def processOne (s : SudokuState) (k : Nat) : SudokuState :=
  processLookup
    (processLookup (processLookup s k (rowIndices s.N (s.cell k).row))
      k (colIndices s.N (s.cell k).column))
    k (boxIndices s.N s.box (s.cell k).row (s.cell k).column)

/-- the `for`/`break` loop of `do_step_3` over the sorted cell sequence:
skip single-element cells, process cells whose current size is at most
`box_size`, stop at the first larger cell. -/
def step3Loop : SudokuState → List Nat → SudokuState
  | s, [] => s
  | s, k :: rest =>
      if (s.cand k).length = 1 then step3Loop s rest
      else if (s.cand k).length ≤ s.box then step3Loop (processOne s k) rest
      else s

/-- the cell processing order of `SudokuMatrixSolver.do_step_3(kw)`:
`sorted(self, key=len)` — sort the cell indices by current content size.
Python `sorted` is a stable sort and a stable sort's output is unique, so
insertion sort reproduces it. -/
def sortedCells (s : SudokuState) : List Nat :=
  List.insertionSort
    (fun a b => (s.cand a).length ≤ (s.cand b).length)
    (List.range s.cells.length)

/-- `SudokuMatrixSolver.do_step_3(kw)` (continued): run the
occurrence-simplification loop over the sorted order, then go back one step
if cleanups are pending, else advance. -/
def do_step_3 (s : SudokuState) : SudokuState :=
  if (step3Loop s (sortedCells s)).cleanups.isEmpty then
    { step3Loop s (sortedCells s) with step := (step3Loop s (sortedCells s)).step + 1 }
  else
    { step3Loop s (sortedCells s) with step := (step3Loop s (sortedCells s)).step - 1 }

/-- `exec("self.do_step_{}(_kw)".format(self.step))`: dispatch on the step
counter; a step number with no `do_step_N` method raises `AttributeError`. -/
def dispatch (fuel : Nat) (s : SudokuState) : Except PyErr SudokuState :=
  match s.step with
  | 1 => Except.ok (do_step_1 s)
  | 2 => do_step_2 fuel s
  | 3 => Except.ok (do_step_3 s)
  | n => Except.error (PyErr.attributeError n)

/-- the `while not self.do_finished()` loop of `do_solve`. -/
def do_solve_loop : Nat → SudokuState → Except PyErr SudokuState
  | 0, s => if allSolved s then Except.ok s else Except.error PyErr.fuelOut
  | fuel + 1, s =>
      if allSolved s then Except.ok s
      else
        match dispatch fuel s with
        | Except.error e => Except.error e
        | Except.ok s1 => do_solve_loop fuel s1

/-- `SudokuMatrixSolver.do_solve()`: set `step = 1` and loop until every
cell is solved; any exception propagates. -/
def do_solve (fuel : Nat) (s : SudokuState) : Except PyErr SudokuState :=
  do_solve_loop fuel { s with step := 1 }

/-- observable outcome of `SudokuMatrixSolver.solve()`: either the solved
state, or the exception delivered to the `failed_solving` callback. -/
inductive SolveOutcome where
  | success : SudokuState → SolveOutcome
  | failed : PyErr → SolveOutcome
deriving DecidableEq

/-- `SudokuMatrixSolver.solve()`: run `do_solve`, catch any exception at the
top level and report it through the `failed_solving` failure callback. -/
def solve (fuel : Nat) (s : SudokuState) : SolveOutcome :=
  match do_solve fuel s with
  | Except.ok s1 => SolveOutcome.success s1
  | Except.error e => SolveOutcome.failed e

/-- default base sequence `range(1, 10)` set by `SudokuMatrix.__init__`. -/
def defaultBase : List Nat := [1, 2, 3, 4, 5, 6, 7, 8, 9]

/-- `SudokuMatrix.reset_matrix` (alphabet part) as called from the
constructor with current base sequence `current`:
`tuple(kw.get("base_sequence") or self.base_sequence)` falls back to the
current base when the argument is empty; an empty resulting base raises
`SudokuMatrixError`; `math.sqrt` must be integral (exact for every length
below `2 ** 52`, modelled by `Nat.sqrt`), else `SudokuMatrixError`; then the
grid is rebuilt with fresh cells.  No `values` / `answer_list` keywords are
passed, matching plain construction. -/
def reset_matrix (current alphabet : List Nat) : Except PyErr SudokuState :=
  let base := if alphabet.isEmpty then current else alphabet
  if base.length = 0 then Except.error PyErr.sudokuMatrixError
  else
    let b := Nat.sqrt base.length
    if b * b = base.length then
      Except.ok
        { base := base, box := b,
          cells := (List.range (base.length * base.length)).map
            (fun k => mkCell base (k / base.length) (k % base.length)),
          cleanups := [], step := 0 }
    else Except.error PyErr.sudokuMatrixError

/-- `SudokuMatrixSolver(base_sequence=alphabet)`: construction through
`reset_matrix` with the default base `range(1, 10)` already installed. -/
def newSudokuMatrix (alphabet : List Nat) : Except PyErr SudokuState :=
  reset_matrix defaultBase alphabet

/-- well-formedness of a grid state as established by `reset_matrix`: the
cell list has `N * N` entries and each cell's `row` / `column` / `base`
attributes agree with its position and the grid's base sequence. -/
def SudokuState.WF (s : SudokuState) : Prop :=
  s.cells.length = s.N * s.N ∧
  ∀ k, k < s.N * s.N →
    (s.cell k).row = k / s.N ∧ (s.cell k).column = k % s.N ∧ (s.cell k).base = s.base

deriving instance DecidableEq for Except

/-! ## Concrete grids used by counterexamples and witnesses -/

/-- the four-symbol alphabet (a valid base sequence: length `4 = 2 * 2`). -/
def base4 : List Nat := [1, 2, 3, 4]

/-- freshly constructed 4-by-4 solver grid: every cell holds the full
alphabet and is unlocked. -/
def blank4 : SudokuState :=
  { base := base4, box := 2,
    cells := (List.range 16).map (fun k => mkCell base4 (k / 4) (k % 4)),
    cleanups := [], step := 0 }

/-- 4-by-4 grid in mid-drain: cells `(0,0)` and `(0,1)` both hold only the
symbol `1`, cell `(0,0)` is registered for cleanups; all other cells are
fresh.  Draining `(0,0)` strips `1` from `(0,1)`, emptying it. -/
def contra4 : SudokuState :=
  { base := base4, box := 2,
    cells := (List.range 16).map (fun k =>
      if k = 0 then { mkCell base4 0 0 with candidates := [Option.some 1] }
      else if k = 1 then { mkCell base4 0 1 with candidates := [Option.some 1] }
      else mkCell base4 (k / 4) (k % 4)),
    cleanups := [0], step := 2 }

/-- 4-by-4 grid with two interfering naked pairs in row 0:
cells `(0,0)`, `(0,1)` hold `[1, 2]` and cells `(0,2)`, `(0,3)` hold
`[1, 3]`; all other cells are fresh. -/
def twoPairs4 : SudokuState :=
  { base := base4, box := 2,
    cells := (List.range 16).map (fun k =>
      if k = 0 then { mkCell base4 0 0 with candidates := [Option.some 1, Option.some 2] }
      else if k = 1 then { mkCell base4 0 1 with candidates := [Option.some 1, Option.some 2] }
      else if k = 2 then { mkCell base4 0 2 with candidates := [Option.some 1, Option.some 3] }
      else if k = 3 then { mkCell base4 0 3 with candidates := [Option.some 1, Option.some 3] }
      else mkCell base4 (k / 4) (k % 4)),
    cleanups := [], step := 0 }

/-- 4-by-4 grid whose cell `(0,0)` is already locked on the value `1`;
all other cells are fresh. -/
def lockedTarget4 : SudokuState :=
  { base := base4, box := 2,
    cells := (List.range 16).map (fun k =>
      if k = 0 then { mkCell base4 0 0 with candidates := [Option.some 1], solved := true }
      else mkCell base4 (k / 4) (k % 4)),
    cleanups := [], step := 0 }

/-- a locked cell holding the sole value `5` over the default alphabet. -/
def lockedCell9 : Cell :=
  { mkCell defaultBase 0 0 with candidates := [Option.some 5], solved := true }

/-- the cell content `[None]` produced by `set_value(None)`. -/
def noneCell9 : Cell := { mkCell defaultBase 0 0 with candidates := [Option.none] }

/-! ## Claim C7 -/

/-- Claim C7: for every cell whose `solved` flag is true, `set_value`,
`set_values` and `strip_value` with any argument are no-ops — the cell (in
particular its candidate list) is returned unchanged and no hook fires. -/
theorem claim_C7_solved_cell_immutable (c : Cell) (v : PyVal) (vs : List Item)
    (w : PyVal) (h : c.solved = true) :
    Cell.set_value c v = Except.ok (c, false) ∧
    Cell.set_values c vs = (c, false) ∧
    Cell.strip_value c w = (c, false) := by
  refine ⟨?_, ?_, ?_⟩ <;> simp [Cell.set_value, Cell.set_values, Cell.strip_value, h]

/-- Witness for C7: a locked cell is unchanged by an attempted overwrite,
a candidate replacement, and an elimination. -/
theorem claim_C7_witness :
    Cell.set_value lockedCell9 (Sum.inl (Option.some 7)) = Except.ok (lockedCell9, false) ∧
    Cell.set_values lockedCell9 [] = (lockedCell9, false) ∧
    Cell.strip_value lockedCell9 (Sum.inl (Option.some 5)) = (lockedCell9, false) :=
  claim_C7_solved_cell_immutable lockedCell9 (Sum.inl (Option.some 7)) []
    (Sum.inl (Option.some 5)) (by decide)

/-! ## Claim C10 -/

/-- Claim C10: `reset()` on any cell — locked or not — clears the `solved`
flag and refills the candidate list with the full base sequence; the solved
lock protects only against `set_value`, `set_values` and `strip_value`. -/
theorem claim_C10_reset_ignores_lock (c : Cell) :
    (Cell.reset c).solved = false ∧
    (Cell.reset c).candidates = c.base.map Option.some ∧
    (Cell.reset c).row = c.row ∧ (Cell.reset c).column = c.column := by
  refine ⟨?_, ?_, ?_, ?_⟩ <;> simp [Cell.reset, Cell.set_values]

/-! ## Claim C8 -/

/-- Counterexample to C8 as stated: `set_value(None)` leaves the singleton
content `[None]`, yet `get_value` returns the whole list, not the sole
element (`len(self) == 1 and self[0] or self` falls through on a falsy
element). -/
theorem claim_C8_counterexample :
    Cell.set_value (mkCell defaultBase 0 0) (Sum.inl Option.none) =
      Except.ok (noneCell9, false) ∧
    noneCell9.candidates.length = 1 ∧
    Cell.get_value noneCell9 = Sum.inr [Option.none] ∧
    Cell.get_value noneCell9 ≠ Sum.inl Option.none := by
  refine ⟨by decide, by decide, by decide, by decide⟩

/-- Amended C8: `get_value` returns the sole element when the list has
length one and that element is truthy (not `None`, not `0`); with a falsy
sole element, or any other length, it returns the whole list. -/
theorem claim_C8_get_value (c : Cell) (v : Item) :
    (c.candidates = [v] → truthy v = true → Cell.get_value c = Sum.inl v) ∧
    (c.candidates = [v] → truthy v = false → Cell.get_value c = Sum.inr c.candidates) ∧
    (c.candidates.length ≠ 1 → Cell.get_value c = Sum.inr c.candidates) := by
  refine ⟨?_, ?_, ?_⟩
  · intro h ht
    simp [Cell.get_value, h, ht]
  · intro h ht
    simp [Cell.get_value, h, ht]
  · intro h
    unfold Cell.get_value
    match hc : c.candidates with
    | [] => rfl
    | [w] => exact absurd (by rw [hc]; rfl) h
    | w :: x :: l => rfl

/-- Witness for C8 (amended): a truthy singleton is returned as the sole
element; the fresh nine-element content is returned whole. -/
theorem claim_C8_witness :
    Cell.get_value lockedCell9 = Sum.inl (Option.some 5) ∧
    Cell.get_value (mkCell defaultBase 0 0) =
      Sum.inr (mkCell defaultBase 0 0).candidates :=
  ⟨(claim_C8_get_value lockedCell9 (Option.some 5)).1 (by decide) (by decide),
   (claim_C8_get_value (mkCell defaultBase 0 0) Option.none).2.2 (by decide)⟩

/-! ## Claim C4 -/

/-- Counterexample to C4 as stated: `set_values` with a one-element sequence
on a fresh unsolved cell makes the candidate list transition to size 1, yet
the source's `set_values` contains no `on_unique_value` call, so the hook
does not fire. -/
theorem claim_C4_counterexample :
    (Cell.set_values (mkCell defaultBase 0 0) [Option.some 1]).2 = false ∧
    (Cell.set_values (mkCell defaultBase 0 0) [Option.some 1]).1.candidates.length = 1 ∧
    (mkCell defaultBase 0 0).candidates.length ≠ 1 ∧
    (mkCell defaultBase 0 0).solved = false := by
  refine ⟨by decide, by decide, by decide, by decide⟩

/-- Amended C4: on an unsolved cell, `set_value` with a base-sequence member
always fires the hook (even without a size transition); `set_value(None)`
leaves a size-1 list without firing it; `set_values` never fires it; and
`strip_value` fires it exactly when the value was present and its removal
leaves exactly one candidate. -/
theorem claim_C4_hook_behaviour (c : Cell) (n : Nat) (it : Item) (vs : List Item)
    (hs : c.solved = false) (hn : n ∈ c.base) :
    Cell.set_value c (Sum.inl (Option.some n)) =
      Except.ok ({ c with candidates := [Option.some n] }, true) ∧
    Cell.set_value c (Sum.inl Option.none) =
      Except.ok ({ c with candidates := [Option.none] }, false) ∧
    (Cell.set_values c vs).2 = false ∧
    ((Cell.strip_value c (Sum.inl it)).2 = true ↔
      it ∈ c.candidates ∧ (c.candidates.erase it).length = 1) := by
  refine ⟨?_, ?_, ?_, ?_⟩
  · simp [Cell.set_value, hs, hn]
  · simp [Cell.set_value, hs]
  · simp [Cell.set_values, hs]
  · unfold Cell.strip_value
    by_cases hm : it ∈ c.candidates <;> simp [hs, hm]

/-- Witness for C4 (amended): concrete hook observations on a fresh cell
over the default alphabet. -/
theorem claim_C4_witness :
    Cell.set_value (mkCell defaultBase 1 1) (Sum.inl (Option.some 3)) =
      Except.ok ({ mkCell defaultBase 1 1 with candidates := [Option.some 3] }, true) ∧
    Cell.set_value (mkCell defaultBase 1 1) (Sum.inl Option.none) =
      Except.ok ({ mkCell defaultBase 1 1 with candidates := [Option.none] }, false) ∧
    (Cell.set_values (mkCell defaultBase 1 1) [Option.some 2]).2 = false ∧
    ((Cell.strip_value (mkCell defaultBase 1 1) (Sum.inl (Option.some 9))).2 = true ↔
      Option.some 9 ∈ (mkCell defaultBase 1 1).candidates ∧
      ((mkCell defaultBase 1 1).candidates.erase (Option.some 9)).length = 1) :=
  claim_C4_hook_behaviour (mkCell defaultBase 1 1) 3 (Option.some 9) [Option.some 2]
    (by decide) (by decide)

/-! ## Claim C9 -/

/-- `math.sqrt(9)` is integral; `Nat.sqrt` needs a rewrite to evaluate. -/
theorem sqrt_nine : Nat.sqrt 9 = 3 := by
  rw [show (9 : Nat) = 3 * 3 from rfl, Nat.sqrt_eq]

/-- Counterexample to C9 as stated: constructing with an empty alphabet does
not fail — the falsy-or fallback
`tuple(kw.get("base_sequence") or self.base_sequence)` silently replaces an
empty alphabet with the default `range(1, 10)`, and construction succeeds. -/
theorem claim_C9_counterexample :
    (newSudokuMatrix []).isOk = true ∧
    (newSudokuMatrix []).toOption.map (fun s => s.base) = Option.some defaultBase := by
  have h : newSudokuMatrix [] =
      (if (9 : Nat) = 0 then Except.error PyErr.sudokuMatrixError
       else if Nat.sqrt 9 * Nat.sqrt 9 = 9 then
        Except.ok
          { base := defaultBase, box := Nat.sqrt 9,
            cells := (List.range (9 * 9)).map
              (fun k => mkCell defaultBase (k / 9) (k % 9)),
            cleanups := [], step := 0 }
       else Except.error PyErr.sudokuMatrixError) := rfl
  rw [h, sqrt_nine]
  refine ⟨by decide, by decide⟩

/-- Amended C9: construction succeeds for every non-empty alphabet whose
length is a perfect square, and fails with `SudokuMatrixError` when the
non-empty alphabet's length is not a perfect square.  An empty alphabet does
not fail: it falls back to the already-installed default base sequence. -/
theorem claim_C9_construction (a : List Nat) (b : Nat) :
    (a ≠ [] → a.length = b * b → (newSudokuMatrix a).isOk = true) ∧
    (a ≠ [] → (∀ m, a.length ≠ m * m) →
      newSudokuMatrix a = Except.error PyErr.sudokuMatrixError) := by
  constructor
  · intro hne hlen
    have hE : a.isEmpty = false := by
      cases a with
      | nil => exact absurd rfl hne
      | cons x l => rfl
    have hb0 : a.length ≠ 0 := by
      cases a with
      | nil => exact absurd rfl hne
      | cons x l => simp
    unfold newSudokuMatrix reset_matrix
    rw [hE]
    simp only [Bool.false_eq_true, if_false, if_neg hb0]
    have hs : Nat.sqrt a.length = b := by rw [hlen, Nat.sqrt_eq]
    rw [hs, if_pos hlen.symm]
    rfl
  · intro hne hnsq
    have hE : a.isEmpty = false := by
      cases a with
      | nil => exact absurd rfl hne
      | cons x l => rfl
    have hb0 : a.length ≠ 0 := by
      cases a with
      | nil => exact absurd rfl hne
      | cons x l => simp
    unfold newSudokuMatrix reset_matrix
    rw [hE]
    simp only [Bool.false_eq_true, if_false, if_neg hb0]
    rw [if_neg (fun h => hnsq (Nat.sqrt a.length) h.symm)]

/-- Witness for C9 (amended): the four-symbol alphabet constructs; a
ten-symbol alphabet fails with `SudokuMatrixError`. -/
theorem claim_C9_witness :
    (newSudokuMatrix base4).isOk = true ∧
    newSudokuMatrix [1, 2, 3, 4, 5, 6, 7, 8, 9, 10] =
      Except.error PyErr.sudokuMatrixError :=
  ⟨(claim_C9_construction base4 2).1 (by decide) (by decide),
   (claim_C9_construction [1, 2, 3, 4, 5, 6, 7, 8, 9, 10] 0).2 (by decide)
     (by
       intro m hm
       simp only [List.length_cons, List.length_nil] at hm
       have hlt : m < 4 := by nlinarith
       interval_cases m <;> omega)⟩

/-! ## Claim C6 -/

/-- the unit of `(r, c)` as a set of `(row, column)` coordinates: row,
column, and containing box. -/
def unitPairs (N b r c : Nat) : Finset (Nat × Nat) :=
  ({r} ×ˢ Finset.range N ∪ Finset.range N ×ˢ {c}) ∪
    Finset.Ico (b * (r / b)) (b * (r / b) + b) ×ˢ
      Finset.Ico (b * (c / b)) (b * (c / b) + b)

/-- the flat-index unit set is the coordinate unit set pushed through the
row-major encoding. -/
theorem unitIndicesList_toFinset (N b r c : Nat) :
    (unitIndicesList N b r c).toFinset =
      Finset.image (fun p : Nat × Nat => p.1 * N + p.2) (unitPairs N b r c) := by
  ext k
  simp only [unitIndicesList, List.mem_toFinset, List.mem_dedup, List.mem_append,
    rowIndices, colIndices, boxIndices, List.mem_map, List.mem_range,
    List.mem_flatMap, Finset.mem_image, unitPairs, Finset.mem_union,
    Finset.mem_product, Finset.mem_singleton, Finset.mem_range, Finset.mem_Ico]
  constructor
  · rintro ((⟨j, hj, rfl⟩ | ⟨i, hi, rfl⟩) | ⟨i, hi, j, hj, rfl⟩)
    · exact ⟨(r, j), Or.inl (Or.inl ⟨rfl, hj⟩), rfl⟩
    · exact ⟨(i, c), Or.inl (Or.inr ⟨hi, rfl⟩), rfl⟩
    · exact ⟨(b * (r / b) + i, b * (c / b) + j),
        Or.inr ⟨⟨Nat.le_add_right _ _, by omega⟩, ⟨Nat.le_add_right _ _, by omega⟩⟩, rfl⟩
  · rintro ⟨⟨p, q⟩, (⟨rfl, hq⟩ | ⟨hp, rfl⟩) | ⟨⟨hp1, hp2⟩, hq1, hq2⟩, rfl⟩
    · exact Or.inl (Or.inl ⟨q, hq, rfl⟩)
    · exact Or.inl (Or.inr ⟨p, hp, rfl⟩)
    · refine Or.inr ⟨p - b * (r / b), by omega, q - b * (c / b), by omega, ?_⟩
      have e1 : b * (r / b) + (p - b * (r / b)) = p := by omega
      have e2 : b * (c / b) + (q - b * (c / b)) = q := by omega
      rw [e1, e2]

/-- the row-major encoding is injective on coordinates with a second
component below `N`. -/
theorem encode_injOn (N : Nat) (hN : 0 < N) :
    Set.InjOn (fun p : Nat × Nat => p.1 * N + p.2)
      { p : Nat × Nat | p.2 < N } := by
  rintro ⟨p1, p2⟩ hp ⟨q1, q2⟩ hq h
  simp only [Set.mem_setOf_eq] at hp hq
  simp only [] at h
  have h1 : p1 = q1 := by
    have e1 : (p1 * N + p2) / N = p1 := by
      rw [Nat.add_comm, Nat.add_mul_div_right _ _ hN, Nat.div_eq_of_lt hp]
      omega
    have e2 : (q1 * N + q2) / N = q1 := by
      rw [Nat.add_comm, Nat.add_mul_div_right _ _ hN, Nat.div_eq_of_lt hq]
      omega
    rw [← e1, ← e2, h]
  have h2 : p2 = q2 := by
    rw [h1] at h
    omega
  rw [h1, h2]

/-- every coordinate of the unit lies in the grid. -/
theorem unitPairs_subset (N b r c : Nat) (hb : 0 < b) (hN : N = b * b)
    (hr : r < N) (hc : c < N) :
    unitPairs N b r c ⊆ Finset.range N ×ˢ Finset.range N := by
  have hrb : r / b < b := by
    rw [Nat.div_lt_iff_lt_mul hb]
    omega
  have hcb : c / b < b := by
    rw [Nat.div_lt_iff_lt_mul hb]
    omega
  have hrbox : b * (r / b) + b ≤ N := by
    have h2 : b * (r / b + 1) ≤ b * b := Nat.mul_le_mul_left b hrb
    have h3 : b * (r / b + 1) = b * (r / b) + b := Nat.mul_succ b (r / b)
    omega
  have hcbox : b * (c / b) + b ≤ N := by
    have h2 : b * (c / b + 1) ≤ b * b := Nat.mul_le_mul_left b hcb
    have h3 : b * (c / b + 1) = b * (c / b) + b := Nat.mul_succ b (c / b)
    omega
  rintro ⟨p, q⟩ hpq
  simp only [unitPairs, Finset.mem_union, Finset.mem_product, Finset.mem_singleton,
    Finset.mem_range, Finset.mem_Ico] at hpq
  simp only [Finset.mem_product, Finset.mem_range]
  rcases hpq with ((⟨rfl, hq⟩ | ⟨hp, rfl⟩) | ⟨⟨hp1, hp2⟩, hq1, hq2⟩) <;> omega

/-- the coordinate unit set has exactly `3 N - 2 b` members (row and column
of size `N`, box of size `b * b = N`; overlaps: row-column one cell, row-box
`b` cells, column-box `b` cells, all three one cell). -/
theorem unitPairs_card (N b r c : Nat) (hb : 0 < b) (hN : N = b * b)
    (hr : r < N) (hc : c < N) :
    (unitPairs N b r c).card = 3 * N - 2 * b := by
  have hrb : r / b < b := by
    rw [Nat.div_lt_iff_lt_mul hb]
    omega
  have hcb : c / b < b := by
    rw [Nat.div_lt_iff_lt_mul hb]
    omega
  have hrbox : b * (r / b) + b ≤ N := by
    have h2 : b * (r / b + 1) ≤ b * b := Nat.mul_le_mul_left b hrb
    have h3 : b * (r / b + 1) = b * (r / b) + b := Nat.mul_succ b (r / b)
    omega
  have hcbox : b * (c / b) + b ≤ N := by
    have h2 : b * (c / b + 1) ≤ b * b := Nat.mul_le_mul_left b hcb
    have h3 : b * (c / b + 1) = b * (c / b) + b := Nat.mul_succ b (c / b)
    omega
  have hrIco : r ∈ Finset.Ico (b * (r / b)) (b * (r / b) + b) := by
    simp only [Finset.mem_Ico]
    have h3 := Nat.div_add_mod r b
    have h2 := Nat.mod_lt r hb
    constructor <;> omega
  have hcIco : c ∈ Finset.Ico (b * (c / b)) (b * (c / b) + b) := by
    simp only [Finset.mem_Ico]
    have h3 := Nat.div_add_mod c b
    have h2 := Nat.mod_lt c hb
    constructor <;> omega
  set A : Finset (Nat × Nat) := {r} ×ˢ Finset.range N with hA
  set B : Finset (Nat × Nat) := Finset.range N ×ˢ {c} with hB
  set C : Finset (Nat × Nat) :=
    Finset.Ico (b * (r / b)) (b * (r / b) + b) ×ˢ
      Finset.Ico (b * (c / b)) (b * (c / b) + b) with hC
  have cardA : A.card = N := by
    rw [hA, Finset.card_product, Finset.card_singleton, Finset.card_range]
    omega
  have cardB : B.card = N := by
    rw [hB, Finset.card_product, Finset.card_singleton, Finset.card_range]
    omega
  have cardC : C.card = b * b := by
    rw [hC, Finset.card_product, Nat.card_Ico, Nat.card_Ico,
      Nat.add_sub_cancel_left, Nat.add_sub_cancel_left]
  have hAB : A ∩ B = {r} ×ˢ ({c} : Finset Nat) := by
    rw [hA, hB, Finset.product_inter_product]
    congr 1
    · exact Finset.inter_eq_left.mpr (by simp [Finset.mem_range, hr])
    · exact Finset.inter_eq_right.mpr (by simp [Finset.mem_range, hc])
  have cardAB : (A ∩ B).card = 1 := by
    rw [hAB, Finset.card_product, Finset.card_singleton, Finset.card_singleton]
  have hAC : A ∩ C = {r} ×ˢ Finset.Ico (b * (c / b)) (b * (c / b) + b) := by
    rw [hA, hC, Finset.product_inter_product]
    congr 1
    · exact Finset.inter_eq_left.mpr (Finset.singleton_subset_iff.mpr hrIco)
    · exact Finset.inter_eq_right.mpr (fun z hz => by
        simp only [Finset.mem_Ico] at hz
        simp only [Finset.mem_range]
        omega)
  have cardAC : (A ∩ C).card = b := by
    rw [hAC, Finset.card_product, Finset.card_singleton, Nat.card_Ico,
      Nat.add_sub_cancel_left, Nat.one_mul]
  have hBC : B ∩ C = Finset.Ico (b * (r / b)) (b * (r / b) + b) ×ˢ ({c} : Finset Nat) := by
    rw [hB, hC, Finset.product_inter_product]
    congr 1
    · exact Finset.inter_eq_right.mpr (fun z hz => by
        simp only [Finset.mem_Ico] at hz
        simp only [Finset.mem_range]
        omega)
    · exact Finset.inter_eq_left.mpr (Finset.singleton_subset_iff.mpr hcIco)
  have cardBC : (B ∩ C).card = b := by
    rw [hBC, Finset.card_product, Finset.card_singleton, Nat.card_Ico,
      Nat.add_sub_cancel_left, Nat.mul_one]
  have hACBC : (A ∩ C) ∩ (B ∩ C) = ({r} : Finset Nat) ×ˢ ({c} : Finset Nat) := by
    rw [hAC, hBC, Finset.product_inter_product]
    congr 1
    · exact Finset.inter_eq_left.mpr (Finset.singleton_subset_iff.mpr hrIco)
    · exact Finset.inter_eq_right.mpr (Finset.singleton_subset_iff.mpr hcIco)
  have cardACBC : ((A ∩ C) ∩ (B ∩ C)).card = 1 := by
    rw [hACBC, Finset.card_product, Finset.card_singleton, Finset.card_singleton]
  have h1 := Finset.card_union_add_card_inter A B
  have h2 := Finset.card_union_add_card_inter (A ∪ B) C
  have h3 := Finset.card_union_add_card_inter (A ∩ C) (B ∩ C)
  have hdistrib : (A ∪ B) ∩ C = (A ∩ C) ∪ (B ∩ C) := Finset.union_inter_distrib_right A B C
  have hcards : (A ∪ B).card + 1 = N + N := by omega
  have : (unitPairs N b r c).card = ((A ∪ B) ∪ C).card := rfl
  rw [this]
  rw [hdistrib] at h2
  have hbN : b ≤ N := by nlinarith
  omega

/-- Counterexample to C6 as stated: on the 4-by-4 grid (`N = 4`, `b = 2`)
the unit of `(0, 0)` has `8` distinct cells, not `3 * N - 2 * b - 1 = 7`. -/
theorem claim_C6_counterexample :
    (unitIndicesList 4 2 0 0).toFinset.card = 8 ∧
    (unitIndicesList 4 2 0 0).toFinset.card ≠ 3 * 4 - 2 * 2 - 1 := by
  refine ⟨by decide, by decide⟩

/-- Amended C6: for every in-bounds location of an `N`-by-`N` grid with box
size `b` (`N = b * b`), the deduplicated union of the cell's row, column and
box consists of exactly `3 * N - 2 * b` distinct cells (the count includes
the cell itself). -/
theorem claim_C6_unit_card (b r c : Nat) (hb : 1 ≤ b) (hr : r < b * b)
    (hc : c < b * b) :
    (unitIndicesList (b * b) b r c).toFinset.card = 3 * (b * b) - 2 * b := by
  have hb0 : 0 < b := hb
  have hN0 : 0 < b * b := Nat.mul_pos hb0 hb0
  rw [unitIndicesList_toFinset]
  rw [Finset.card_image_of_injOn (fun p hp q hq h => by
    have hsub := unitPairs_subset (b * b) b r c hb0 rfl hr hc
    have hp2 : p.2 < b * b := by
      have := hsub hp
      simp only [Finset.mem_product, Finset.mem_range] at this
      exact this.2
    have hq2 : q.2 < b * b := by
      have := hsub hq
      simp only [Finset.mem_product, Finset.mem_range] at this
      exact this.2
    exact encode_injOn (b * b) hN0 hp2 hq2 h)]
  exact unitPairs_card (b * b) b r c hb0 rfl hr hc

/-- Witness for C6 (amended): at `b = 2`, location `(0, 0)`, the unit has
`3 * 4 - 2 * 2 = 8` cells. -/
theorem claim_C6_witness :
    (unitIndicesList (2 * 2) 2 0 0).toFinset.card = 3 * (2 * 2) - 2 * 2 :=
  claim_C6_unit_card 2 0 0 (by decide) (by decide) (by decide)

/-! ## Preservation lemmas for the grid-level operations -/

theorem strip_value_preserves (c : Cell) (v : PyVal) :
    (Cell.strip_value c v).1.solved = c.solved ∧
    (Cell.strip_value c v).1.row = c.row ∧
    (Cell.strip_value c v).1.column = c.column ∧
    (Cell.strip_value c v).1.base = c.base := by
  by_cases h : c.solved
  · simp [Cell.strip_value, h]
  · cases v with
    | inr l => simp [Cell.strip_value, h]
    | inl it => by_cases hm : it ∈ c.candidates <;> simp [Cell.strip_value, h, hm]

theorem strip_value_cand (c : Cell) (it : Item) (h : c.solved = false) :
    (Cell.strip_value c (Sum.inl it)).1.candidates = c.candidates.erase it := by
  by_cases hm : it ∈ c.candidates
  · simp [Cell.strip_value, h, hm]
  · simp [Cell.strip_value, h, hm, List.erase_of_not_mem hm]

theorem strip_value_mem_mono (c : Cell) (v : PyVal) (w : Item)
    (h : w ∈ (Cell.strip_value c v).1.candidates) : w ∈ c.candidates := by
  by_cases hs : c.solved
  · simpa [Cell.strip_value, hs] using h
  · cases v with
    | inr l => simpa [Cell.strip_value, hs] using h
    | inl it =>
        by_cases hm : it ∈ c.candidates
        · simp only [Cell.strip_value, hs, if_false, hm, if_true] at h
          exact List.mem_of_mem_erase h
        · simpa [Cell.strip_value, hs, hm] using h

@[simp] theorem enqueue_cells (s : SudokuState) (k : Nat) :
    (s.enqueue k).cells = s.cells := by
  unfold SudokuState.enqueue
  split <;> rfl

@[simp] theorem enqueue_base (s : SudokuState) (k : Nat) :
    (s.enqueue k).base = s.base := by
  unfold SudokuState.enqueue
  split <;> rfl

@[simp] theorem enqueue_box (s : SudokuState) (k : Nat) :
    (s.enqueue k).box = s.box := by
  unfold SudokuState.enqueue
  split <;> rfl

@[simp] theorem enqueue_step (s : SudokuState) (k : Nat) :
    (s.enqueue k).step = s.step := by
  unfold SudokuState.enqueue
  split <;> rfl

@[simp] theorem enqueue_cell (s : SudokuState) (k m : Nat) :
    (s.enqueue k).cell m = s.cell m := by
  unfold SudokuState.cell
  rw [enqueue_cells]

@[simp] theorem setCell_base (s : SudokuState) (k : Nat) (c : Cell) :
    (s.setCell k c).base = s.base := rfl

@[simp] theorem setCell_box (s : SudokuState) (k : Nat) (c : Cell) :
    (s.setCell k c).box = s.box := rfl

@[simp] theorem setCell_step (s : SudokuState) (k : Nat) (c : Cell) :
    (s.setCell k c).step = s.step := rfl

@[simp] theorem setCell_cleanups (s : SudokuState) (k : Nat) (c : Cell) :
    (s.setCell k c).cleanups = s.cleanups := rfl

@[simp] theorem setCell_length (s : SudokuState) (k : Nat) (c : Cell) :
    (s.setCell k c).cells.length = s.cells.length := by
  unfold SudokuState.setCell
  exact List.length_set s.cells k c

theorem cell_setCell_ne (s : SudokuState) (k : Nat) (c : Cell) (m : Nat)
    (h : m ≠ k) : (s.setCell k c).cell m = s.cell m := by
  unfold SudokuState.cell SudokuState.setCell
  simp only [List.getD_eq_getElem?_getD]
  rw [List.getElem?_set_ne (fun hkm => h hkm.symm)]

theorem cell_setCell_self (s : SudokuState) (k : Nat) (c : Cell)
    (h : k < s.cells.length) : (s.setCell k c).cell k = c := by
  unfold SudokuState.cell SudokuState.setCell
  simp only [List.getD_eq_getElem?_getD]
  rw [List.getElem?_set_self h]
  rfl

@[simp] theorem stripCell_base (s : SudokuState) (k : Nat) (v : PyVal) :
    (stripCell s k v).base = s.base := by
  unfold stripCell
  split <;> simp

@[simp] theorem stripCell_box (s : SudokuState) (k : Nat) (v : PyVal) :
    (stripCell s k v).box = s.box := by
  unfold stripCell
  split <;> simp

@[simp] theorem stripCell_step (s : SudokuState) (k : Nat) (v : PyVal) :
    (stripCell s k v).step = s.step := by
  unfold stripCell
  split <;> simp

@[simp] theorem stripCell_length (s : SudokuState) (k : Nat) (v : PyVal) :
    (stripCell s k v).cells.length = s.cells.length := by
  unfold stripCell
  split <;> simp

theorem stripCell_cell_ne (s : SudokuState) (k : Nat) (v : PyVal) (m : Nat)
    (h : m ≠ k) : (stripCell s k v).cell m = s.cell m := by
  unfold stripCell
  split <;> simp [enqueue_cell, cell_setCell_ne s k _ m h]

theorem stripCell_cell_self (s : SudokuState) (k : Nat) (v : PyVal)
    (h : k < s.cells.length) :
    (stripCell s k v).cell k = ((s.cell k).strip_value v).1 := by
  unfold stripCell
  split <;> simp [enqueue_cell, cell_setCell_self s k _ h]

theorem setCell_oob (s : SudokuState) (k : Nat) (c : Cell)
    (h : s.cells.length ≤ k) : s.setCell k c = s := by
  unfold SudokuState.setCell
  rw [List.set_eq_of_length_le h]

theorem stripCell_cell_oob (s : SudokuState) (k : Nat) (v : PyVal) (m : Nat)
    (h : s.cells.length ≤ k) : (stripCell s k v).cell m = s.cell m := by
  unfold stripCell
  rw [setCell_oob s k _ h]
  split <;> simp [enqueue_cell]

theorem stripCell_solved (s : SudokuState) (k : Nat) (v : PyVal) (m : Nat) :
    ((stripCell s k v).cell m).solved = (s.cell m).solved := by
  by_cases h : m = k
  · subst h
    by_cases hl : m < s.cells.length
    · rw [stripCell_cell_self s m v hl]
      exact (strip_value_preserves _ _).1
    · rw [stripCell_cell_oob s m v m (Nat.le_of_not_lt hl)]
  · rw [stripCell_cell_ne s k v m h]

theorem stripCell_mem_mono (s : SudokuState) (k : Nat) (v : PyVal) (m : Nat)
    (w : Item) (h : w ∈ ((stripCell s k v).cell m).candidates) :
    w ∈ ((s.cell m).candidates) := by
  by_cases hm : m = k
  · subst hm
    by_cases hl : m < s.cells.length
    · rw [stripCell_cell_self s m v hl] at h
      exact strip_value_mem_mono _ _ _ h
    · rw [stripCell_cell_oob s m v m (Nat.le_of_not_lt hl)] at h
      exact h
  · rw [stripCell_cell_ne s k v m hm] at h
    exact h

/-! ## Claim C1 -/

theorem foldStrip_base (l : List Nat) (s : SudokuState) (v : PyVal) :
    (l.foldl (fun t k => stripCell t k v) s).base = s.base := by
  induction l generalizing s with
  | nil => rfl
  | cons k rest ih => rw [List.foldl_cons, ih]; simp

theorem foldStrip_length (l : List Nat) (s : SudokuState) (v : PyVal) :
    (l.foldl (fun t k => stripCell t k v) s).cells.length = s.cells.length := by
  induction l generalizing s with
  | nil => rfl
  | cons k rest ih => rw [List.foldl_cons, ih]; simp

theorem foldStrip_cell (l : List Nat) (s : SudokuState) (v : PyVal)
    (hnd : l.Nodup) (m : Nat) :
    (l.foldl (fun t k => stripCell t k v) s).cell m =
      if m ∈ l then ((s.cell m).strip_value v).1 else s.cell m := by
  induction l generalizing s with
  | nil => simp
  | cons k rest ih =>
      rw [List.foldl_cons]
      have hnd' : rest.Nodup := hnd.of_cons
      by_cases hm : m = k
      · subst hm
        have hnm : m ∉ rest := (List.nodup_cons.mp hnd).1
        rw [ih _ hnd', if_neg hnm, if_pos (List.mem_cons_self m rest)]
        by_cases hl : m < s.cells.length
        · exact stripCell_cell_self s m v hl
        · rw [stripCell_cell_oob s m v m (Nat.le_of_not_lt hl)]
          have hdm : s.cell m = defaultCell := by
            unfold SudokuState.cell
            rw [List.getD_eq_getElem?_getD, List.getElem?_eq_none (Nat.le_of_not_lt hl)]
            rfl
          rw [hdm]
          cases v with
          | inl it => simp [Cell.strip_value, defaultCell]
          | inr l => simp [Cell.strip_value, defaultCell]
      · rw [ih _ hnd', stripCell_cell_ne s k v m hm]
        by_cases hrest : m ∈ rest
        · simp [hrest, List.mem_cons, hm]
        · simp [hrest, List.mem_cons, hm]

/-- encoding bound: an in-bounds coordinate pair encodes below `N * N`. -/
theorem encode_lt (N a d : Nat) (ha : a < N) (hd : d < N) : a * N + d < N * N := by
  have h1 : a * N + d < (a + 1) * N := by
    have : (a + 1) * N = a * N + N := by ring
    omega
  have h2 : (a + 1) * N ≤ N * N := Nat.mul_le_mul_right N ha
  omega

/-- the box base row/column plus the box size stays inside the grid. -/
theorem boxBase_add_le (b r : Nat) (hb : 0 < b) (hr : r < b * b) :
    b * (r / b) + b ≤ b * b := by
  have hrb : r / b < b := by
    rw [Nat.div_lt_iff_lt_mul hb]
    omega
  have h2 : b * (r / b + 1) ≤ b * b := Nat.mul_le_mul_left b hrb
  have h3 : b * (r / b + 1) = b * (r / b) + b := Nat.mul_succ b (r / b)
  omega

/-- every member of a unit is an in-range flat index. -/
theorem unit_mem_lt (N b r c : Nat) (hb : 0 < b) (hN : N = b * b)
    (hr : r < N) (hc : c < N) (k : Nat) (hk : k ∈ unitIndicesList N b r c) :
    k < N * N := by
  rw [unitIndicesList, List.mem_dedup, List.mem_append, List.mem_append] at hk
  rcases hk with (hk | hk) | hk
  · rw [rowIndices, List.mem_map] at hk
    obtain ⟨j, hj, rfl⟩ := hk
    exact encode_lt N r j hr (List.mem_range.mp hj)
  · rw [colIndices, List.mem_map] at hk
    obtain ⟨i, hi, rfl⟩ := hk
    exact encode_lt N i c (List.mem_range.mp hi) hc
  · rw [boxIndices, List.mem_flatMap] at hk
    obtain ⟨i, hi, hk⟩ := hk
    rw [List.mem_map] at hk
    obtain ⟨j, hj, rfl⟩ := hk
    have h1 := boxBase_add_le b r hb (hN ▸ hr)
    have h2 := boxBase_add_le b c hb (hN ▸ hc)
    have hi' := List.mem_range.mp hi
    have hj' := List.mem_range.mp hj
    exact encode_lt N _ _ (by omega) (by omega)

/-- the target cell belongs to its own unit. -/
theorem target_mem_unit (N b r c : Nat) (hc : c < N) :
    r * N + c ∈ unitIndicesList N b r c := by
  rw [unitIndicesList, List.mem_dedup, List.mem_append, List.mem_append]
  exact Or.inl (Or.inl (by

    rw [rowIndices, List.mem_map]
    exact ⟨c, List.mem_range.mpr hc, rfl⟩))

/-- Counterexample to C1 as stated: on a grid whose target cell is already
locked (on the value `1`), `strip_value(2, 0, 0)` succeeds but leaves the
target's content `[1]` — `at(r,c).value()` is not the committed value. -/
theorem claim_C1_counterexample :
    (matrixStripValue lockedTarget4 (Sum.inl (Option.some 2)) 0 0).toOption.map
      (fun t => (t.cell 0).candidates) = Option.some [Option.some 1] ∧
    (2 : Nat) ∈ lockedTarget4.base ∧
    [Option.some (1 : Nat)] ≠ [Option.some 2] := by
  refine ⟨by decide, by decide, by decide⟩

/-- Amended C1: for an in-bounds location and an alphabet member, provided
every cell of the unit is unsolved and has duplicate-free content,
`strip_value(v, r, c)` succeeds, the target's content becomes exactly `[v]`,
and no other cell of the unit retains `v`. -/
theorem claim_C1_commit_value (s : SudokuState) (r c v : Nat)
    (hwf : s.WF) (hr : r < s.N) (hc : c < s.N) (hv : v ∈ s.base)
    (hout : ∀ k ∈ unitIndicesList s.N s.box r c, (s.cell k).solved = false)
    (hnd : ∀ k ∈ unitIndicesList s.N s.box r c, (s.cell k).candidates.Nodup) :
    ∃ t, matrixStripValue s (Sum.inl (Option.some v)) r c = Except.ok t ∧
      (t.cell (r * s.N + c)).candidates = [Option.some v] ∧
      ∀ k ∈ unitIndicesList s.N s.box r c, k ≠ r * s.N + c →
        Option.some v ∉ (t.cell k).candidates := by
  have htgt : r * s.N + c ∈ unitIndicesList s.N s.box r c :=
    target_mem_unit s.N s.box r c hc
  have htlt : r * s.N + c < s.N * s.N := encode_lt s.N r c hr hc
  have hnodup_unit : (unitIndicesList s.N s.box r c).Nodup := List.nodup_dedup _
  set u := unitIndicesList s.N s.box r c with hu
  set s1 := u.foldl (fun t k => stripCell t k (Sum.inl (Option.some v))) s with hs1
  have hcell1 : ∀ m, s1.cell m =
      if m ∈ u then ((s.cell m).strip_value (Sum.inl (Option.some v))).1
      else s.cell m := fun m => foldStrip_cell u s _ hnodup_unit m
  have hlen1 : s1.cells.length = s.cells.length := foldStrip_length u s _
  have hbase1 : s1.base = s.base := foldStrip_base u s _
  have htgt_cell : s1.cell (r * s.N + c) =
      ((s.cell (r * s.N + c)).strip_value (Sum.inl (Option.some v))).1 := by
    rw [hcell1, if_pos htgt]
  have htgt_solved : (s1.cell (r * s.N + c)).solved = false := by
    rw [htgt_cell, (strip_value_preserves _ _).1]
    exact hout _ htgt
  have htgt_base : (s1.cell (r * s.N + c)).base = s.base := by
    rw [htgt_cell, (strip_value_preserves _ _).2.2.2]
    exact ((hwf.2 (r * s.N + c) htlt).2.2)
  have hmem : v ∈ (s1.cell (r * s.N + c)).base := by
    rw [htgt_base]
    exact hv
  have hsv : (s1.cell (r * s.N + c)).set_value (Sum.inl (Option.some v)) =
      Except.ok ({ s1.cell (r * s.N + c) with candidates := [Option.some v] }, true) := by
    simp [Cell.set_value, htgt_solved, hmem]
  refine ⟨(s1.setCell (r * s.N + c)
      ({ s1.cell (r * s.N + c) with candidates := [Option.some v] })).enqueue
      (r * s.N + c), ?_, ?_, ?_⟩
  · unfold matrixStripValue
    rw [if_pos ⟨hr, hc⟩]
    dsimp only
    rw [← hu, ← hs1]
    unfold setValueCell
    rw [hsv]
    rfl
  · have hlt1 : r * s.N + c < s1.cells.length := by rw [hlen1, hwf.1]; exact htlt
    rw [enqueue_cell, cell_setCell_self s1 _ _ hlt1]
  · intro k hk hne
    rw [enqueue_cell, cell_setCell_ne s1 _ _ k hne]
    rw [hcell1, if_pos hk]
    rw [strip_value_cand _ _ (hout k hk)]
    exact (hnd k hk).not_mem_erase

/-- Witness for C1 (amended): committing `3` at `(1, 2)` of the fresh
4-by-4 grid yields content `[3]` there and removes `3` everywhere else in
the unit. -/
theorem claim_C1_witness :
    ∃ t, matrixStripValue blank4 (Sum.inl (Option.some 3)) 1 2 = Except.ok t ∧
      (t.cell (1 * blank4.N + 2)).candidates = [Option.some 3] ∧
      ∀ k ∈ unitIndicesList blank4.N blank4.box 1 2, k ≠ 1 * blank4.N + 2 →
        Option.some 3 ∉ (t.cell k).candidates :=
  claim_C1_commit_value blank4 1 2 3
    (by
      refine ⟨by decide, ?_⟩
      have hN4 : blank4.N = 4 := by decide
      have hall : ∀ k, k < 16 →
          (blank4.cell k).row = k / blank4.N ∧
          (blank4.cell k).column = k % blank4.N ∧
          (blank4.cell k).base = blank4.base := by decide
      intro k hk
      rw [hN4] at hk
      exact hall k (by omega))
    (by decide) (by decide) (by decide)
    (by decide) (by decide)

/-! ## Claim C2 -/

theorem foldl_step_invariant {β : Type} (f : SudokuState → β → SudokuState)
    (hf : ∀ t b, (f t b).step = t.step) :
    ∀ (l : List β) (s : SudokuState), (l.foldl f s).step = s.step
  | [], _ => rfl
  | b :: l, s => by
      rw [List.foldl_cons, foldl_step_invariant f hf l _, hf]

theorem lookupStrip_step (s : SudokuState) (cellIdx : Nat) (simsP unit : List Nat) :
    (lookupStrip s cellIdx simsP unit).step = s.step := by
  unfold lookupStrip
  refine foldl_step_invariant _ ?_ unit s
  intro t k
  split
  · rfl
  · exact foldl_step_invariant _ (fun u v => stripCell_step u k (Sum.inl v)) _ t

theorem processLookup_step (s : SudokuState) (cellIdx : Nat) (unit : List Nat) :
    (processLookup s cellIdx unit).step = s.step := by
  unfold processLookup
  split
  · rfl
  · exact lookupStrip_step s cellIdx _ unit

theorem processOne_step (s : SudokuState) (k : Nat) :
    (processOne s k).step = s.step := by
  unfold processOne
  rw [processLookup_step, processLookup_step, processLookup_step]

theorem step3Loop_step : ∀ (l : List Nat) (s : SudokuState),
    (step3Loop s l).step = s.step
  | [], _ => rfl
  | k :: rest, s => by
      unfold step3Loop
      split
      · exact step3Loop_step rest s
      · split
        · rw [step3Loop_step rest _, processOne_step]
        · rfl

/-- Counterexample to C2 as stated: on the freshly constructed 4-by-4 grid,
no cell ever solves, subset elimination finds nothing, and the solver —
instead of repeating the naked-singles / drain / subset-elimination
sequence until all cells are solved — advances to step 4, for which no
`do_step_4` method exists, and `do_solve` dies with `AttributeError`. -/
theorem claim_C2_counterexample :
    do_solve 10 blank4 = Except.error (PyErr.attributeError 4) ∧
    allSolved blank4 = false := by
  refine ⟨by decide, by decide⟩

/-- Amended C2: after subset elimination the solver goes back one step
(to the drain step) when the cleanup queue is non-empty and otherwise
advances one step; but the advance target is step 4, which has no handler,
so a dispatch at step 4 with unsolved cells remaining raises
`AttributeError` instead of repeating the naked-singles / drain /
subset-elimination sequence. -/
theorem claim_C2_loop_control (s t : SudokuState) (fuel : Nat)
    (ht4 : t.step = 4) (htu : allSolved t = false) :
    ((do_step_3 s).cleanups ≠ [] → (do_step_3 s).step = s.step - 1) ∧
    ((do_step_3 s).cleanups = [] → (do_step_3 s).step = s.step + 1) ∧
    do_solve_loop (fuel + 1) t = Except.error (PyErr.attributeError 4) := by
  have hstep : (step3Loop s (sortedCells s)).step = s.step :=
    step3Loop_step (sortedCells s) s
  have hclean : (do_step_3 s).cleanups = (step3Loop s (sortedCells s)).cleanups := by
    unfold do_step_3
    split <;> rfl
  refine ⟨?_, ?_, ?_⟩
  · intro hne
    rw [hclean] at hne
    unfold do_step_3
    rw [if_neg (by simpa [List.isEmpty_iff] using hne)]
    exact congrArg (fun n => n - 1) hstep
  · intro hemp
    rw [hclean] at hemp
    unfold do_step_3
    rw [if_pos (by simpa [List.isEmpty_iff] using hemp)]
    exact congrArg (fun n => n + 1) hstep
  · unfold do_solve_loop
    rw [htu]
    unfold dispatch
    rw [ht4]
    rfl

/-- Witness for C2 (amended): with pending cleanups absent the fresh grid's
subset-elimination pass advances the step counter, and a dispatch at step 4
on the fresh grid fails with `AttributeError`. -/
theorem claim_C2_witness :
    ((do_step_3 blank4).cleanups ≠ [] → (do_step_3 blank4).step = blank4.step - 1) ∧
    ((do_step_3 blank4).cleanups = [] → (do_step_3 blank4).step = blank4.step + 1) ∧
    do_solve_loop (5 + 1) { blank4 with step := 4 } =
      Except.error (PyErr.attributeError 4) :=
  claim_C2_loop_control blank4 { blank4 with step := 4 } 5 (by decide) (by decide)

/-! ## Claim C3 -/

/-- Counterexample to C3 as stated: draining the queue of `contra4` strips
`1` from cell `(0, 1)` — which then holds the empty candidate list while
not solved — and `do_step_2` returns normally: no exception is raised at
the moment an elimination empties a cell. -/
theorem claim_C3_counterexample :
    (do_step_2 10 contra4).toOption.map
      (fun t => ((t.cell 1).candidates, (t.cell 1).solved)) =
      Option.some ([], false) ∧
    (contra4.cell 1).candidates = [Option.some 1] := by
  refine ⟨by decide, by decide⟩

/-- Amended C3: an elimination that empties a cell raises nothing — on an
unsolved cell `strip_value` always returns normally with the value erased;
an unsolvable grid instead surfaces later, when the loop dispatches to the
missing step-4 handler; whatever exception `do_solve` raises is caught at
the top level of `solve` and reported through the `failed_solving` failure
callback. -/
theorem claim_C3_failure_reporting (fuel : Nat) (s : SudokuState) (e : PyErr)
    (c : Cell) (it : Item) (hc : c.solved = false)
    (h : do_solve fuel s = Except.error e) :
    solve fuel s = SolveOutcome.failed e ∧
    (Cell.strip_value c (Sum.inl it)).1.candidates = c.candidates.erase it := by
  constructor
  · unfold solve
    rw [h]
  · exact strip_value_cand c it hc

/-- Witness for C3 (amended): the contradictory grid's full solve run ends
in the failure callback with the `AttributeError` of the missing step 4;
stripping the last candidate of an unsolved one-candidate cell empties it
without error. -/
theorem claim_C3_witness :
    solve 20 contra4 = SolveOutcome.failed (PyErr.attributeError 4) ∧
    (Cell.strip_value { mkCell base4 0 1 with candidates := [Option.some 1] }
      (Sum.inl (Option.some 1))).1.candidates =
      ({ mkCell base4 0 1 with candidates := [Option.some 1] } : Cell).candidates.erase
        (Option.some 1) :=
  claim_C3_failure_reporting 20 contra4 (PyErr.attributeError 4)
    { mkCell base4 0 1 with candidates := [Option.some 1] } (Option.some 1)
    (by decide) (by decide)

/-! ## Claim C5 -/

theorem cand_eq (s : SudokuState) (k : Nat) :
    s.cand k = (s.cell k).candidates := rfl

theorem cand_oob (s : SudokuState) (k : Nat) (h : s.cells.length ≤ k) :
    s.cand k = [] := by
  unfold SudokuState.cand SudokuState.cell
  rw [List.getD_eq_getElem?_getD, List.getElem?_eq_none h]
  rfl

theorem foldl_strip_mem_mono (vs : List Item) (t : SudokuState) (k m : Nat)
    (w : Item)
    (h : w ∈ (vs.foldl (fun u v => stripCell u k (Sum.inl v)) t).cand m) :
    w ∈ t.cand m := by
  induction vs generalizing t with
  | nil => exact h
  | cons v rest ih =>
      rw [List.foldl_cons] at h
      exact stripCell_mem_mono t k (Sum.inl v) m w (ih _ h)

theorem lookupStrip_mem_mono (unit : List Nat) (t : SudokuState)
    (cellIdx : Nat) (simsP : List Nat) (m : Nat) (w : Item)
    (h : w ∈ (lookupStrip t cellIdx simsP unit).cand m) : w ∈ t.cand m := by
  induction unit generalizing t with
  | nil => exact h
  | cons k rest ih =>
      unfold lookupStrip at h ih
      rw [List.foldl_cons] at h
      have h1 := ih _ h
      revert h1
      split
      · exact id
      · exact fun h1 => foldl_strip_mem_mono _ t k m w h1

theorem processLookup_mem_mono (t : SudokuState) (cellIdx : Nat)
    (unit : List Nat) (m : Nat) (w : Item)
    (h : w ∈ (processLookup t cellIdx unit).cand m) : w ∈ t.cand m := by
  unfold processLookup at h
  revert h
  split
  · exact id
  · exact fun h => lookupStrip_mem_mono unit t cellIdx _ m w h

theorem processOne_mem_mono (t : SudokuState) (k m : Nat) (w : Item)
    (h : w ∈ (processOne t k).cand m) : w ∈ t.cand m := by
  unfold processOne at h
  exact processLookup_mem_mono _ _ _ m w
    (processLookup_mem_mono _ _ _ m w (processLookup_mem_mono _ _ _ m w h))

theorem step3Loop_mem_mono : ∀ (l : List Nat) (t : SudokuState) (m : Nat)
    (w : Item), w ∈ (step3Loop t l).cand m → w ∈ t.cand m
  | [], _, _, _ => id
  | k :: rest, t, m, w => by
      unfold step3Loop
      split
      · exact step3Loop_mem_mono rest t m w
      · split
        · exact fun h =>
            processOne_mem_mono t k m w (step3Loop_mem_mono rest _ m w h)
        · exact id

theorem do_step_3_cand (s : SudokuState) (k : Nat) :
    (do_step_3 s).cand k = (step3Loop s (sortedCells s)).cand k := by
  unfold do_step_3
  split <;> rfl

theorem stripTwo_cand (t : SudokuState) (k : Nat) (a b : Item)
    (hs : (t.cell k).solved = false) :
    (stripCell (stripCell t k (Sum.inl a)) k (Sum.inl b)).cand k =
      ((t.cand k).erase a).erase b := by
  by_cases hl : k < t.cells.length
  · have h1 : (stripCell t k (Sum.inl a)).cand k = (t.cand k).erase a := by
      rw [cand_eq, stripCell_cell_self t k _ hl, strip_value_cand _ _ hs]
      rfl
    have hl2 : k < (stripCell t k (Sum.inl a)).cells.length := by
      rw [stripCell_length]
      exact hl
    have hs2 : ((stripCell t k (Sum.inl a)).cell k).solved = false := by
      rw [stripCell_solved]
      exact hs
    rw [cand_eq, stripCell_cell_self _ k _ hl2, strip_value_cand _ _ hs2, ← cand_eq, h1]
  · have h0 : t.cand k = [] := cand_oob t k (Nat.le_of_not_lt hl)
    have h1 : (stripCell t k (Sum.inl a)).cand k = t.cand k := by
      rw [cand_eq, stripCell_cell_oob t k _ k (Nat.le_of_not_lt hl)]
      rfl
    have hl2 : (stripCell t k (Sum.inl a)).cells.length ≤ k := by
      rw [stripCell_length]
      exact Nat.le_of_not_lt hl
    rw [cand_eq, stripCell_cell_oob _ k _ k hl2, ← cand_eq, h1, h0]
    rfl

theorem stripTwo_cand_ne (t : SudokuState) (k : Nat) (a b : Item) (m : Nat)
    (hm : m ≠ k) :
    (stripCell (stripCell t k (Sum.inl a)) k (Sum.inl b)).cand m = t.cand m := by
  rw [cand_eq, stripCell_cell_ne _ k _ m hm, stripCell_cell_ne _ k _ m hm]
  rfl

theorem stripTwo_solved (t : SudokuState) (k : Nat) (a b : Item) (m : Nat) :
    ((stripCell (stripCell t k (Sum.inl a)) k (Sum.inl b)).cell m).solved =
      (t.cell m).solved := by
  rw [stripCell_solved, stripCell_solved]

/-- the invariant maintained through a subset-elimination pass over a grid
`s0` holding a naked pair `[x, y]` at cells `i` and `j`: the pair cells are
intact, every cell is unlocked with duplicate-free content, and every other
cell either still has its original content or has lost both `x` and `y`. -/
def pairInvariant (s0 t : SudokuState) (i j x y : Nat) : Prop :=
  t.cand i = [Option.some x, Option.some y] ∧
  t.cand j = [Option.some x, Option.some y] ∧
  (∀ k, (t.cell k).solved = false) ∧
  (∀ k, (t.cand k).Nodup) ∧
  (∀ k, k ≠ i → k ≠ j →
    (t.cand k = s0.cand k ∨
      (Option.some x ∉ t.cand k ∧ Option.some y ∉ t.cand k)))

theorem pairInvariant_cand_ne (s0 t : SudokuState) (i j x y : Nat)
    (hinv : pairInvariant s0 t i j x y)
    (hothers : ∀ k, k < s0.cells.length → k ≠ i → k ≠ j → 2 < (s0.cand k).length)
    (q : Nat) (hqi : q ≠ i) (hqj : q ≠ j) :
    t.cand q ≠ [Option.some x, Option.some y] := by
  rcases hinv.2.2.2.2 q hqi hqj with horig | hgone
  · intro hL
    by_cases hq : q < s0.cells.length
    · have := hothers q hq hqi hqj
      rw [← horig, hL] at this
      simp at this
    · rw [cand_oob s0 q (Nat.le_of_not_lt hq)] at horig
      rw [horig] at hL
      exact List.cons_ne_nil _ _ hL.symm
  · intro hL
    exact hgone.1 (hL ▸ List.mem_cons_self _ _)

/-- one lookup's strip loop preserves the pair invariant; when the sims
group is non-empty and consists of pair cells only, every unit cell outside
the pair loses both pair values. -/
theorem lookupStrip_pair (s0 : SudokuState) (i j x y : Nat)
    (hothers : ∀ k, k < s0.cells.length → k ≠ i → k ≠ j → 2 < (s0.cand k).length)
    (hIdx : Nat) (hh : hIdx = i ∨ hIdx = j) (simsP : List Nat)
    (hsims : ∀ q ∈ simsP, q = i ∨ q = j) (hne : simsP ≠ []) :
    ∀ (unit : List Nat) (t : SudokuState), pairInvariant s0 t i j x y →
      pairInvariant s0 (lookupStrip t hIdx simsP unit) i j x y ∧
      ∀ k ∈ unit, k ≠ i → k ≠ j →
        Option.some x ∉ (lookupStrip t hIdx simsP unit).cand k ∧
        Option.some y ∉ (lookupStrip t hIdx simsP unit).cand k := by
  intro unit
  induction unit with
  | nil =>
      intro t hinv
      exact ⟨hinv, by simp⟩
  | cons k rest ih =>
      intro t hinv
      obtain ⟨hci, hcj, hsol, hnd, hdis⟩ := hinv
      have hinv' : pairInvariant s0 t i j x y := ⟨hci, hcj, hsol, hnd, hdis⟩
      have hLh : t.cand hIdx = [Option.some x, Option.some y] := by
        rcases hh with rfl | rfl
        · exact hci
        · exact hcj
      by_cases hk : k = i ∨ k = j
      · have hga : simsP.any
            (fun q => decide (k = q) || decide (t.cand k = t.cand q)) = true := by
          obtain ⟨q0, hq0⟩ := List.exists_mem_of_ne_nil simsP hne
          rw [List.any_eq_true]
          refine ⟨q0, hq0, ?_⟩
          have hcq : t.cand q0 = [Option.some x, Option.some y] := by
            rcases hsims q0 hq0 with rfl | rfl
            · exact hci
            · exact hcj
          have hck : t.cand k = [Option.some x, Option.some y] := by
            rcases hk with rfl | rfl
            · exact hci
            · exact hcj
          rw [hck, hcq]
          simp
        have hstep : lookupStrip t hIdx simsP (k :: rest) =
            lookupStrip t hIdx simsP rest := by
          unfold lookupStrip
          rw [List.foldl_cons, if_pos hga]
        rw [hstep]
        obtain ⟨hinvR, hstrR⟩ := ih t hinv'
        refine ⟨hinvR, ?_⟩
        intro m hm hmi hmj
        rcases List.mem_cons.mp hm with rfl | hm'
        · rcases hk with rfl | rfl
          · exact absurd rfl hmi
          · exact absurd rfl hmj
        · exact hstrR m hm' hmi hmj
      · push_neg at hk
        obtain ⟨hki, hkj⟩ := hk
        have hgf : simsP.any
            (fun q => decide (k = q) || decide (t.cand k = t.cand q)) = false := by
          rw [List.any_eq_false]
          intro q hq
          have hcq : t.cand q = [Option.some x, Option.some y] := by
            rcases hsims q hq with rfl | rfl
            · exact hci
            · exact hcj
          have hkq : k ≠ q := by
            rcases hsims q hq with rfl | rfl
            · exact hki
            · exact hkj
          have hckL : t.cand k ≠ [Option.some x, Option.some y] :=
            pairInvariant_cand_ne s0 t i j x y hinv' hothers k hki hkj
          simp only [Bool.or_eq_true, decide_eq_true_eq, not_or]
          exact ⟨hkq, fun hceq => hckL (hceq.trans hcq)⟩
        have hstep : lookupStrip t hIdx simsP (k :: rest) =
            lookupStrip
              (stripCell (stripCell t k (Sum.inl (Option.some x))) k
                (Sum.inl (Option.some y))) hIdx simsP rest := by
          unfold lookupStrip
          rw [List.foldl_cons]
          rw [if_neg (by rw [hgf]; exact Bool.false_ne_true)]
          rw [hLh]
          rfl
        rw [hstep]
        set t2 := stripCell (stripCell t k (Sum.inl (Option.some x))) k
          (Sum.inl (Option.some y)) with ht2
        have ht2i : t2.cand i = [Option.some x, Option.some y] := by
          rw [ht2, stripTwo_cand_ne t k _ _ i (Ne.symm hki)]
          exact hci
        have ht2j : t2.cand j = [Option.some x, Option.some y] := by
          rw [ht2, stripTwo_cand_ne t k _ _ j (Ne.symm hkj)]
          exact hcj
        have ht2k : t2.cand k =
            ((t.cand k).erase (Option.some x)).erase (Option.some y) := by
          rw [ht2, stripTwo_cand t k _ _ (hsol k)]
        have hk2 : Option.some x ∉ t2.cand k ∧ Option.some y ∉ t2.cand k := by
          rw [ht2k]
          constructor
          · intro hmem
            exact (hnd k).not_mem_erase (List.mem_of_mem_erase hmem)
          · exact ((hnd k).erase (Option.some x)).not_mem_erase
        have hinv2 : pairInvariant s0 t2 i j x y := by
          refine ⟨ht2i, ht2j, ?_, ?_, ?_⟩
          · intro m
            rw [ht2, stripTwo_solved]
            exact hsol m
          · intro m
            by_cases hmk : m = k
            · subst hmk
              rw [ht2k]
              exact ((hnd m).erase (Option.some x)).erase (Option.some y)
            · rw [ht2, stripTwo_cand_ne t k _ _ m hmk]
              exact hnd m
          · intro m hmi hmj
            by_cases hmk : m = k
            · subst hmk
              exact Or.inr hk2
            · rw [ht2, stripTwo_cand_ne t k _ _ m hmk]
              exact hdis m hmi hmj
        obtain ⟨hinvR, hstrR⟩ := ih t2 hinv2
        refine ⟨hinvR, ?_⟩
        intro m hm hmi hmj
        rcases List.mem_cons.mp hm with rfl | hm'
        · constructor
          · intro hmem
            exact hk2.1 (lookupStrip_mem_mono rest t2 hIdx simsP m _ hmem)
          · intro hmem
            exact hk2.2 (lookupStrip_mem_mono rest t2 hIdx simsP m _ hmem)
        · exact hstrR m hm' hmi hmj

/-- one lookup of `do_step_3` preserves the pair invariant; when the unit
contains the pair partner of the processed cell, every unit cell outside the
pair loses both pair values. -/
theorem processLookup_pair (s0 : SudokuState) (i j x y : Nat)
    (hothers : ∀ k, k < s0.cells.length → k ≠ i → k ≠ j → 2 < (s0.cand k).length)
    (hIdx : Nat) (hh : hIdx = i ∨ hIdx = j)
    (t : SudokuState) (hinv : pairInvariant s0 t i j x y) (unit : List Nat) :
    pairInvariant s0 (processLookup t hIdx unit) i j x y ∧
    ((∃ q, q ∈ unit ∧ (q = i ∨ q = j) ∧ q ≠ hIdx) →
      ∀ k ∈ unit, k ≠ i → k ≠ j →
        Option.some x ∉ (processLookup t hIdx unit).cand k ∧
        Option.some y ∉ (processLookup t hIdx unit).cand k) := by
  have hLh : t.cand hIdx = [Option.some x, Option.some y] := by
    rcases hh with rfl | rfl
    · exact hinv.1
    · exact hinv.2.1
  have hsimsMem : ∀ q ∈ similarCells t hIdx unit, q = i ∨ q = j := by
    intro q hq
    unfold similarCells at hq
    rw [List.mem_filter, decide_eq_true_eq] at hq
    by_contra hqn
    push_neg at hqn
    exact (pairInvariant_cand_ne s0 t i j x y hinv hothers q hqn.1 hqn.2)
      (hq.2.1.trans hLh)
  unfold processLookup
  split
  · next hemp =>
      refine ⟨hinv, ?_⟩
      rintro ⟨q, hq, hqij, hqh⟩
      have hqL : t.cand q = [Option.some x, Option.some y] := by
        rcases hqij with rfl | rfl
        · exact hinv.1
        · exact hinv.2.1
      have hqmem : q ∈ similarCells t hIdx unit := by
        unfold similarCells
        rw [List.mem_filter, decide_eq_true_eq]
        exact ⟨hq, hqL.trans hLh.symm, hqh⟩
      rw [List.isEmpty_iff] at hemp
      rw [hemp] at hqmem
      exact absurd hqmem (List.not_mem_nil q)
  · next hnemp =>
      have hsimsP : ∀ q ∈ similarCells t hIdx unit ++ [hIdx], q = i ∨ q = j := by
        intro q hq
        rcases List.mem_append.mp hq with hq1 | hq2
        · exact hsimsMem q hq1
        · rw [List.mem_singleton] at hq2
          rw [hq2]
          exact hh
      have hPne : similarCells t hIdx unit ++ [hIdx] ≠ [] := by simp
      obtain ⟨hinvR, hstrR⟩ :=
        lookupStrip_pair s0 i j x y hothers hIdx hh _ hsimsP hPne unit t hinv
      exact ⟨hinvR, fun _ => hstrR⟩

/-- processing a pair cell in `do_step_3` strips both pair values from every
non-pair cell of whichever of its three units contains the pair partner. -/
theorem processOne_pair_strikes (s0 : SudokuState) (i j x y : Nat)
    (hothers : ∀ k, k < s0.cells.length → k ≠ i → k ≠ j → 2 < (s0.cand k).length)
    (h0 : Nat) (hh : h0 = i ∨ h0 = j)
    (hinv : pairInvariant s0 s0 i j x y) (u : List Nat)
    (hu3 : u = rowIndices s0.N (s0.cell h0).row ∨
           u = colIndices s0.N (s0.cell h0).column ∨
           u = boxIndices s0.N s0.box (s0.cell h0).row (s0.cell h0).column)
    (hother : ∃ q, q ∈ u ∧ (q = i ∨ q = j) ∧ q ≠ h0) :
    ∀ k ∈ u, k ≠ i → k ≠ j →
      Option.some x ∉ (processOne s0 h0).cand k ∧
      Option.some y ∉ (processOne s0 h0).cand k := by
  obtain ⟨hinv1, hstr1⟩ := processLookup_pair s0 i j x y hothers h0 hh s0 hinv
    (rowIndices s0.N (s0.cell h0).row)
  obtain ⟨hinv2, hstr2⟩ := processLookup_pair s0 i j x y hothers h0 hh _ hinv1
    (colIndices s0.N (s0.cell h0).column)
  obtain ⟨hinv3, hstr3⟩ := processLookup_pair s0 i j x y hothers h0 hh _ hinv2
    (boxIndices s0.N s0.box (s0.cell h0).row (s0.cell h0).column)
  intro k hk hki hkj
  rcases hu3 with hru | hcu | hbu
  · subst hru
    have hs1 := hstr1 hother k hk hki hkj
    constructor
    · intro hmem
      exact hs1.1 (processLookup_mem_mono _ _ _ k _
        (processLookup_mem_mono _ _ _ k _ hmem))
    · intro hmem
      exact hs1.2 (processLookup_mem_mono _ _ _ k _
        (processLookup_mem_mono _ _ _ k _ hmem))
  · subst hcu
    have hs2 := hstr2 hother k hk hki hkj
    constructor
    · intro hmem
      exact hs2.1 (processLookup_mem_mono _ _ _ k _ hmem)
    · intro hmem
      exact hs2.2 (processLookup_mem_mono _ _ _ k _ hmem)
  · subst hbu
    exact hstr3 hother k hk hki hkj

/-- Counterexample to C5 as stated: in `twoPairs4`, cells `2` and `3` lie in
the same row unit and both hold the identical 2-element candidate set
`[1, 3]`, yet after one subset-elimination pass cell `0` — another cell of
that unit — still holds `1`: the earlier-processed pair `[1, 2]` at cells
`0`, `1` destroyed the `[1, 3]` pair before it was examined, and nothing
removed `1` from cell `0` itself. -/
theorem claim_C5_counterexample :
    twoPairs4.cand 2 = [Option.some 1, Option.some 3] ∧
    twoPairs4.cand 3 = [Option.some 1, Option.some 3] ∧
    (2 ∈ rowIndices twoPairs4.N 0 ∧ 3 ∈ rowIndices twoPairs4.N 0 ∧
      0 ∈ rowIndices twoPairs4.N 0) ∧
    Option.some 1 ∈ (do_step_3 twoPairs4).cand 0 := by
  refine ⟨by decide, by decide, ⟨by decide, by decide, by decide⟩, by decide⟩

/-- Amended C5: if two distinct cells `i`, `j` of the same unit (row, column
or box) hold the identical candidate list `[x, y]`, every cell of the grid is
unsolved with duplicate-free content, and the pair cells are the only cells
with at most two candidates, then after one subset-elimination pass every
other cell of that unit has lost both `x` and `y`. -/
theorem claim_C5_subset_elimination (s : SudokuState) (i j x y : Nat)
    (u : List Nat)
    (hij : i ≠ j)
    (hilen : i < s.cells.length) (hjlen : j < s.cells.length)
    (hbox : 2 ≤ s.box)
    (hci : s.cand i = [Option.some x, Option.some y])
    (hcj : s.cand j = [Option.some x, Option.some y])
    (hsolved : ∀ k, (s.cell k).solved = false)
    (hnd : ∀ k, (s.cand k).Nodup)
    (hothers : ∀ k, k < s.cells.length → k ≠ i → k ≠ j → 2 < (s.cand k).length)
    (hu : (u = rowIndices s.N (s.cell i).row ∧ u = rowIndices s.N (s.cell j).row) ∨
          (u = colIndices s.N (s.cell i).column ∧
            u = colIndices s.N (s.cell j).column) ∨
          (u = boxIndices s.N s.box (s.cell i).row (s.cell i).column ∧
            u = boxIndices s.N s.box (s.cell j).row (s.cell j).column))
    (hiu : i ∈ u) (hju : j ∈ u) :
    ∀ k ∈ u, k ≠ i → k ≠ j →
      Option.some x ∉ (do_step_3 s).cand k ∧
      Option.some y ∉ (do_step_3 s).cand k := by
  letI : IsTotal Nat (fun a b => (s.cand a).length ≤ (s.cand b).length) :=
    ⟨fun a b => Nat.le_total _ _⟩
  letI : IsTrans Nat (fun a b => (s.cand a).length ≤ (s.cand b).length) :=
    ⟨fun a b c hab hbc => Nat.le_trans hab hbc⟩
  have hsorted : List.Sorted (fun a b => (s.cand a).length ≤ (s.cand b).length)
      (sortedCells s) := List.sorted_insertionSort _ _
  have hperm : (sortedCells s).Perm (List.range s.cells.length) :=
    List.perm_insertionSort _ _
  have hi_mem : i ∈ sortedCells s :=
    hperm.mem_iff.mpr (List.mem_range.mpr hilen)
  have hinv0 : pairInvariant s s i j x y :=
    ⟨hci, hcj, hsolved, hnd, fun k _ _ => Or.inl rfl⟩
  cases horder : sortedCells s with
  | nil =>
      rw [horder] at hi_mem
      exact absurd hi_mem (List.not_mem_nil i)
  | cons h0 rest =>
      have hh0 : h0 = i ∨ h0 = j := by
        by_contra hcon
        push_neg at hcon
        have hho : h0 ∈ sortedCells s := by
          rw [horder]
          exact List.mem_cons_self h0 rest
        have hh0lt : h0 < s.cells.length :=
          List.mem_range.mp (hperm.mem_iff.mp hho)
        have hlen2 : 2 < (s.cand h0).length := hothers h0 hh0lt hcon.1 hcon.2
        have hir : i ∈ rest := by
          rw [horder] at hi_mem
          rcases List.mem_cons.mp hi_mem with heq | hr
          · exact absurd heq.symm hcon.1
          · exact hr
        have hle : (s.cand h0).length ≤ (s.cand i).length := by
          rw [horder] at hsorted
          exact (List.sorted_cons.mp hsorted).1 i hir
        rw [hci] at hle
        simp at hle
        omega
      have hlen_h0 : (s.cand h0).length = 2 := by
        rcases hh0 with rfl | rfl
        · rw [hci]
          rfl
        · rw [hcj]
          rfl
      have hloop : step3Loop s (sortedCells s) =
          step3Loop (processOne s h0) rest := by
        rw [horder]
        unfold step3Loop
        rw [if_neg (show ¬ ((s.cand h0).length = 1) by rw [hlen_h0]; decide)]
        rw [if_pos (show (s.cand h0).length ≤ s.box by rw [hlen_h0]; exact hbox)]
        cases rest with
        | nil => rfl
        | cons a l => rfl
      have hu3 : u = rowIndices s.N (s.cell h0).row ∨
          u = colIndices s.N (s.cell h0).column ∨
          u = boxIndices s.N s.box (s.cell h0).row (s.cell h0).column := by
        rcases hu with ⟨hui, huj⟩ | ⟨hui, huj⟩ | ⟨hui, huj⟩
        · rcases hh0 with rfl | rfl
          · exact Or.inl hui
          · exact Or.inl huj
        · rcases hh0 with rfl | rfl
          · exact Or.inr (Or.inl hui)
          · exact Or.inr (Or.inl huj)
        · rcases hh0 with rfl | rfl
          · exact Or.inr (Or.inr hui)
          · exact Or.inr (Or.inr huj)
      have hother : ∃ q, q ∈ u ∧ (q = i ∨ q = j) ∧ q ≠ h0 := by
        rcases hh0 with rfl | rfl
        · exact ⟨j, hju, Or.inr rfl, Ne.symm hij⟩
        · exact ⟨i, hiu, Or.inl rfl, hij⟩
      have hstr := processOne_pair_strikes s i j x y hothers h0 hh0 hinv0 u
        hu3 hother
      intro k hk hki hkj
      have hsk := hstr k hk hki hkj
      constructor
      · intro hmem
        rw [do_step_3_cand, hloop] at hmem
        exact hsk.1 (step3Loop_mem_mono rest _ k _ hmem)
      · intro hmem
        rw [do_step_3_cand, hloop] at hmem
        exact hsk.2 (step3Loop_mem_mono rest _ k _ hmem)

/-- a property holding for every stored cell and for the out-of-range dummy
holds for every index. -/
theorem all_cells_prop (s : SudokuState) (P : Cell → Prop)
    (hbound : ∀ m, m < s.cells.length → P (s.cell m)) (hdef : P defaultCell) :
    ∀ k, P (s.cell k) := by
  intro k
  by_cases hk : k < s.cells.length
  · exact hbound k hk
  · unfold SudokuState.cell
    rw [List.getD_eq_getElem?_getD, List.getElem?_eq_none (Nat.le_of_not_lt hk)]
    exact hdef

/-- 4-by-4 grid with a single naked pair `[1, 2]` at cells `(0, 0)` and
`(0, 1)`; all other cells are fresh. -/
def onePair4 : SudokuState :=
  { base := base4, box := 2,
    cells := (List.range 16).map (fun k =>
      if k = 0 then { mkCell base4 0 0 with candidates := [Option.some 1, Option.some 2] }
      else if k = 1 then { mkCell base4 0 1 with candidates := [Option.some 1, Option.some 2] }
      else mkCell base4 (k / 4) (k % 4)),
    cleanups := [], step := 0 }

/-- Witness for C5 (amended): on `onePair4` the pass removes both `1` and
`2` from cells `2` and `3`, the row-0 cells outside the pair. -/
theorem claim_C5_witness :
    (Option.some 1 ∉ (do_step_3 onePair4).cand 2 ∧
      Option.some 2 ∉ (do_step_3 onePair4).cand 2) ∧
    (Option.some 1 ∉ (do_step_3 onePair4).cand 3 ∧
      Option.some 2 ∉ (do_step_3 onePair4).cand 3) := by
  have h := claim_C5_subset_elimination onePair4 0 1 1 2
    (rowIndices onePair4.N (onePair4.cell 0).row)
    (by decide) (by decide) (by decide) (by decide) (by decide) (by decide)
    (all_cells_prop onePair4 (fun c => c.solved = false)
      (by decide) (by decide))
    (all_cells_prop onePair4 (fun c => c.candidates.Nodup)
      (by decide) (by decide))
    (by decide)
    (Or.inl ⟨rfl, by decide⟩)
    (by decide) (by decide)
  exact ⟨h 2 (by decide) (by decide) (by decide),
    h 3 (by decide) (by decide) (by decide)⟩

end SudokuPy
